import Mathlib

/-!
# Verification of the linksmash metadata-extraction engine

Shallow embedding of the TypeScript metadata-extraction backend
(`apps/api/src`) in Lean 4, together with theorems settling the frozen
claims about its specification.

Conventions:
* JavaScript strings are Lean `String`s; JS `null`-able strings are
  `Option String` (`none` = `null`).
* JS exceptions are modelled with `Except String` carrying the error
  message (the HTTP controller classifies errors by message text).
* Network and Redis I/O are modelled by explicit oracle functions passed
  as parameters; cache state is threaded explicitly.
-/

set_option maxRecDepth 10000

namespace Linksmash

/-! ## JavaScript string primitives -/

/-- The ASCII whitespace characters recognised by JS `String.prototype.trim`
(we restrict attention to the ASCII subset of the Unicode definition). -/
def wsChar (c : Char) : Bool :=
  c = ' ' || c = '\t' || c = '\n' || c = '\r' || c = '\x0b' || c = '\x0c'

/-- Trim from the left: drop leading whitespace. -/
def jsTrimLeftList (l : List Char) : List Char := l.dropWhile wsChar

/-- Trim from the right: drop trailing whitespace. -/
def jsTrimRightList (l : List Char) : List Char :=
  (l.reverse.dropWhile wsChar).reverse

/-- Model of JS `String.prototype.trim` on character lists. -/
def jsTrimList (l : List Char) : List Char :=
  jsTrimRightList (jsTrimLeftList l)

/-- Model of JS `String.prototype.trim`. -/
def jsTrim (s : String) : String := ⟨jsTrimList s.data⟩

/-- `listIsPrefixOf pat l` decides whether `pat` is a prefix of `l`. -/
def listIsPrefixOf : List Char → List Char → Bool
  | [], _ => true
  | _ :: _, [] => false
  | a :: as, b :: bs => a = b && listIsPrefixOf as bs

/-- `listContains pat hay` decides whether `pat` occurs as a contiguous
sublist of `hay` (JS `String.prototype.includes`). -/
def listContains (pat : List Char) : List Char → Bool
  | [] => listIsPrefixOf pat []
  | c :: t => listIsPrefixOf pat (c :: t) || listContains pat t

/-- Model of JS `s.includes(pat)`. -/
def strIncludes (s pat : String) : Bool := listContains pat.data s.data

/-- Model of JS `s.startsWith(pat)`. -/
def strStartsWith (s pat : String) : Bool := listIsPrefixOf pat.data s.data

/-- Model of JS `String.prototype.toLowerCase` (ASCII letters). -/
def strToLower (s : String) : String := ⟨s.data.map Char.toLower⟩

/-- JS truthiness of a nullable string: `null` and `""` are falsy. -/
def jsFalsy (o : Option String) : Bool :=
  match o with
  | none => true
  | some s => s = ""

/-- JS `o || d` for a nullable string `o` and string default `d`. -/
def jsOr (o : Option String) (d : String) : String :=
  match o with
  | none => d
  | some s => if s = "" then d else s

/-- Model of JS `s.split(sep)` for a one-character separator, on
character lists (used with `"."`).  `"".split(".")` is `[""]`. -/
def splitOnChar (sep : Char) : List Char → List (List Char)
  | [] => [[]]
  | c :: t =>
    let r := splitOnChar sep t
    if c = sep then [] :: r
    else
      match r with
      | [] => [[c]]
      | h :: t' => (c :: h) :: t'

/-- Model of JS `s.split(sep)` on strings. -/
def strSplitOn (s : String) (sep : Char) : List String :=
  (splitOnChar sep s.data).map fun l => (⟨l⟩ : String)

/-- JS `parseInt(s || "0")` as used by the image scorer: the value of the
leading decimal-digit run, `0` when there is none (conflating `NaN` with
`0`, which the scorer's `> 0` / `< 200` comparisons cannot distinguish). -/
def jsParseIntNat (s : String) : Nat :=
  let digits := s.data.takeWhile (fun c => c.isDigit)
  digits.foldl (fun acc c => acc * 10 + (c.toNat - 48)) 0

/-! ### Trim lemmas -/

theorem dropWhile_dropWhile (p : α → Bool) (l : List α) :
    (l.dropWhile p).dropWhile p = l.dropWhile p := by
  induction l with
  | nil => rfl
  | cons a t ih =>
    by_cases h : p a
    · simp [List.dropWhile_cons, h, ih]
    · simp [List.dropWhile_cons, h]

theorem dropWhile_of_prefix (p : α → Bool) (l₁ l₂ : List α)
    (hpre : l₁ <+: l₂) (h : l₂.dropWhile p = l₂) : l₁.dropWhile p = l₁ := by
  cases l₁ with
  | nil => rfl
  | cons a t =>
    obtain ⟨r, hr⟩ := hpre
    have ha : p a = false := by
      have hh := List.head?_dropWhile_not p l₂
      rw [h] at hh
      subst hr
      simpa using hh
    simp [List.dropWhile_cons, ha]

theorem jsTrimRightList_prefix (l : List Char) : jsTrimRightList l <+: l := by
  unfold jsTrimRightList
  have h : l.reverse.dropWhile wsChar <:+ l.reverse := List.dropWhile_suffix _
  obtain ⟨r, hr⟩ := h
  refine ⟨r.reverse, ?_⟩
  have h2 := congrArg List.reverse hr
  simpa using h2

theorem jsTrimList_idem (l : List Char) : jsTrimList (jsTrimList l) = jsTrimList l := by
  unfold jsTrimList
  have h1 : jsTrimLeftList (jsTrimRightList (jsTrimLeftList l))
      = jsTrimRightList (jsTrimLeftList l) := by
    apply dropWhile_of_prefix wsChar _ (jsTrimLeftList l)
    · exact jsTrimRightList_prefix _
    · exact dropWhile_dropWhile wsChar l
  rw [h1]
  unfold jsTrimRightList
  rw [List.reverse_reverse, dropWhile_dropWhile]

theorem jsTrim_idem (s : String) : jsTrim (jsTrim s) = jsTrim s := by
  unfold jsTrim
  exact congrArg String.mk (jsTrimList_idem s.data)

/-! ## URL model

The backend relies on the WHATWG `URL` class of the JS runtime.  We model
the fragment of its behaviour the engine uses: parsing an absolute URL
string into a protocol and a (lower-cased, port-free) hostname.  Only
`http:`/`https:` URLs written with an explicit `//` authority are given a
hostname, which covers every URL form the engine's claims mention; a
string with no scheme fails to parse, as `new URL` would throw. -/

structure JsUrl where
  protocol : String
  hostname : String
deriving DecidableEq, Repr

/-- Is `c` allowed in a URL scheme (after the leading letter)? -/
def schemeChar (c : Char) : Bool :=
  c.isAlpha || c.isDigit || c = '+' || c = '-' || c = '.'

/-- Model of `new URL(s)` (the fragment used by the engine): returns the
protocol (with trailing `:`) and the lower-cased hostname, or `none` when
the string does not parse as an absolute URL. -/
def parseJsUrl (s : String) : Option JsUrl :=
  let cs := s.data
  let schemeCs := cs.takeWhile schemeChar
  let rest := cs.drop schemeCs.length
  match schemeCs, rest with
  | [], _ => none
  | c :: _, ':' :: r2 =>
    if c.isAlpha then
      let scheme := strToLower ⟨schemeCs⟩
      if scheme = "http" || scheme = "https" then
        match r2 with
        | '/' :: '/' :: r3 =>
          let auth := r3.takeWhile (fun ch => ch ≠ '/' && ch ≠ '?' && ch ≠ '#')
          let host := auth.takeWhile (fun ch => ch ≠ ':' && ch ≠ '@')
          if host = [] then none
          else some ⟨scheme ++ ":", strToLower ⟨host⟩⟩
        | _ => none
      else
        -- non-special scheme: opaque path, empty hostname
        some ⟨scheme ++ ":", ""⟩
    else none
  | _, _ => none

/-! ## `utils/url-validator.ts` -/

/-- `isValidUrl` from `url-validator.ts`: the string parses as a URL and
its protocol is `http:` or `https:`. -/
def isValidUrl (urlString : String) : Bool :=
  match parseJsUrl urlString with
  | none => false
  | some u => u.protocol = "http:" || u.protocol = "https:"

/-- `normalizeUrl` from `url-validator.ts`: reject empty input, trim,
reject a blank or invalid trimmed URL, otherwise return the trimmed URL
verbatim (the source's `trimmedUrl` binding is inlined).  Thrown JS
errors become `Except.error` with the thrown message. -/
def normalizeUrl (urlString : String) : Except String String :=
  if urlString = "" then .error "URL is required and must be a string"
  else if jsTrim urlString = "" then .error "URL cannot be empty"
  else if !isValidUrl (jsTrim urlString) then
    .error ("Invalid URL format: " ++ jsTrim urlString)
  else .ok (jsTrim urlString)

/-- `resolveUrl` from `url-validator.ts`: `new URL(relative, base).href`,
returning `relative` unchanged when resolution fails.  We model the JS
runtime's resolution by: an already-absolute `relative` resolves to
itself, otherwise it is joined onto `base`'s origin; when `base` does not
parse either, the catch branch returns `relative` unchanged. -/
def resolveUrl (relativeUrl baseUrl : String) : String :=
  match parseJsUrl relativeUrl with
  | some _ => relativeUrl
  | none =>
    match parseJsUrl baseUrl with
    | some u =>
      u.protocol ++ "//" ++ u.hostname ++
        (if strStartsWith relativeUrl "/" then relativeUrl else "/" ++ relativeUrl)
    | none => relativeUrl

/-! ## Data model (`utils/og-parser.ts`) -/

/-- `ParsedMetadata` from `og-parser.ts`: all fields nullable. -/
structure ParsedMetadata where
  title : Option String
  description : Option String
  image : Option String
  url : Option String
deriving DecidableEq, Repr

/-- JS truthiness test `Boolean(x && x.trim() !== "")` (also the shape of
`if (x && x.trim())`): a non-null, non-empty string with non-blank trim. -/
def fieldNonEmpty (o : Option String) : Bool :=
  match o with
  | none => false
  | some s => if s = "" then false else jsTrim s ≠ ""

/-! ## DOM model

`og-parser.ts` queries HTML through cheerio.  We embed the parser over
the parsed document (a tree of elements and text nodes) rather than over
raw HTML strings: cheerio's HTML parsing is an external library, and the
engine's logic begins at the DOM.  Elements are listed in document
(preorder) order, which is the order cheerio selections iterate in. -/

inductive Node where
  | elem (tag : String) (attrs : List (String × String)) (children : List Node)
  | txt (s : String)
deriving Repr

/-- A document: the top-level node list. -/
abbrev Doc := List Node

/-- Tag of an element node, `none` for text. -/
def nodeTag : Node → Option String
  | .elem tag _ _ => some tag
  | .txt _ => none

/-- Cheerio `.attr(name)`: value of the first attribute with that name,
`none` (JS `undefined`) when absent or on a text node. -/
def nodeAttr (n : Node) (name : String) : Option String :=
  match n with
  | .txt _ => none
  | .elem _ attrs _ => (attrs.find? (fun p => p.1 = name)).map Prod.snd

mutual
/-- Cheerio `.text()` of one node: concatenated descendant text. -/
def nodeText : Node → String
  | .txt s => s
  | .elem _ _ children => nodesText children

/-- Concatenated text of a node list, in order. -/
def nodesText : List Node → String
  | [] => ""
  | n :: rest => nodeText n ++ nodesText rest
end

mutual
/-- All element nodes below one node in preorder, each paired with its
ancestor chain (outermost first; the node itself included). -/
def elemAnc (anc : List Node) : Node → List (Node × List Node)
  | .txt _ => []
  | .elem tag attrs children =>
    (Node.elem tag attrs children, anc) ::
      elemsAnc (anc ++ [Node.elem tag attrs children]) children

/-- All element nodes of a node list in preorder with ancestor chains. -/
def elemsAnc (anc : List Node) : List Node → List (Node × List Node)
  | [] => []
  | n :: rest => elemAnc anc n ++ elemsAnc anc rest
end

/-- All elements of the document, in document order, with ancestors. -/
def allElemsAnc (doc : Doc) : List (Node × List Node) := elemsAnc [] doc

/-- All elements of the document, in document order. -/
def allElems (doc : Doc) : List Node := (allElemsAnc doc).map Prod.fst

/-- Cheerio `$('tag[attrName="value"]').attr("content")`: the `content`
attribute of the first matching element. -/
def metaContent (doc : Doc) (attrName value : String) : Option String :=
  match (allElems doc).find?
      (fun n => nodeTag n = some "meta" && nodeAttr n attrName = some value) with
  | none => none
  | some n => nodeAttr n "content"

/-- Cheerio `$(tag).text()`: concatenated text of all matching elements. -/
def textOfAll (doc : Doc) (tag : String) : String :=
  nodesText ((allElems doc).filter (fun n => nodeTag n = some tag))

/-- Cheerio `$(tag).first().text()`: text of the first matching element,
`""` when there is none. -/
def firstTagText (doc : Doc) (tag : String) : String :=
  match (allElems doc).find? (fun n => nodeTag n = some tag) with
  | none => ""
  | some n => nodeText n

/-- JS truthiness of a nullable string value. -/
def truthyStr (o : Option String) : Bool :=
  match o with
  | none => false
  | some s => s ≠ ""

/-- JS `a || b` on two nullable strings (as in `attr(x) || attr(y)`). -/
def jsOrOpt (a b : Option String) : Option String :=
  if truthyStr a then a else b

/-- JS `a || b || null` on two nullable strings: a falsy result collapses
to `null`. -/
def jsOrNull (a b : Option String) : Option String :=
  if truthyStr a then a else if truthyStr b then b else none

/-! ## `utils/og-parser.ts` -/

/-- Whitespace collapsing of `sanitizeText`'s `replace(/\s+/g, " ")`. -/
def collapseWsList : List Char → List Char
  | [] => []
  | [c] => if wsChar c then [' '] else [c]
  | c₁ :: c₂ :: rest =>
    if wsChar c₁ && wsChar c₂ then collapseWsList (c₂ :: rest)
    else (if wsChar c₁ then ' ' else c₁) :: collapseWsList (c₂ :: rest)

/-- `sanitizeText`: collapse whitespace runs to single spaces, then trim
(the second `replace(/\n+/g, " ")` is a no-op: no newline survives the
first replace). -/
def sanitizeText (s : String) : String := jsTrim ⟨collapseWsList s.data⟩

/-- `extractTitle`: og:title → `<title>` → first `<h1>` →
`meta[name="title"]` → first non-empty `h2`…`h6`. -/
def extractTitle (doc : Doc) : Option String :=
  let ogTitle := jsOrOpt (metaContent doc "property" "og:title") (metaContent doc "name" "og:title")
  if fieldNonEmpty ogTitle then ogTitle.map jsTrim
  else
    let titleTag := jsTrim (textOfAll doc "title")
    if titleTag ≠ "" then some titleTag
    else
      let h1 := jsTrim (firstTagText doc "h1")
      if h1 ≠ "" then some h1
      else
        let metaTitle := metaContent doc "name" "title"
        if fieldNonEmpty metaTitle then metaTitle.map jsTrim
        else
          ["h2", "h3", "h4", "h5", "h6"].findSome? fun t =>
            let heading := jsTrim (firstTagText doc t)
            if heading ≠ "" then some heading else none

/-- The navigation-keyword blocklist of `findMeaningfulParagraph`. -/
def NAV_KEYWORDS : List String :=
  ["home", "about", "contact", "menu", "navigation", "nav", "skip", "skip to"]

/-- `isNavText`: the lower-cased text contains a navigation keyword. -/
def isNavText (text : String) : Bool :=
  NAV_KEYWORDS.any (fun k => strIncludes (strToLower text) k)

/-- `p` elements having an ancestor with the given tag (`"main p"` etc.),
in document order. -/
def pWithAncestor (doc : Doc) (anc : String) : List Node :=
  (allElemsAnc doc).filterMap fun pr =>
    if nodeTag pr.1 = some "p" ∧ pr.2.any (fun a => nodeTag a = some anc) then some pr.1
    else none

/-- `p` elements whose direct parent is `body` (`"body > p"`). -/
def pChildOfBody (doc : Doc) : List Node :=
  (allElemsAnc doc).filterMap fun pr =>
    if nodeTag pr.1 = some "p" ∧ (pr.2.getLast?.bind nodeTag) = some "body" then some pr.1
    else none

/-- All `p` elements (the final `$("p")` fallback). -/
def allPs (doc : Doc) : List Node :=
  (allElems doc).filter (fun n => nodeTag n = some "p")

/-- The per-selector scan of `findMeaningfulParagraph`: first paragraph
whose trimmed text has length ≥ 50 and is not navigation text. -/
def firstMeaningfulIn (ps : List Node) : Option String :=
  ps.findSome? fun n =>
    let text := jsTrim (nodeText n)
    if text.length ≥ 50 ∧ ¬ (isNavText text = true) then some text else none

/-- `findMeaningfulParagraph`: scan `main p`, `article p`, `section p`,
`body > p`, then any `p`. -/
def findMeaningfulParagraph (doc : Doc) : Option String :=
  (firstMeaningfulIn (pWithAncestor doc "main")).or
    ((firstMeaningfulIn (pWithAncestor doc "article")).or
      ((firstMeaningfulIn (pWithAncestor doc "section")).or
        ((firstMeaningfulIn (pChildOfBody doc)).or
          (firstMeaningfulIn (allPs doc)))))

/-- `extractAriaLabel`: first `aria-label` (trimmed) of length ≥ 30.  The
source loops over four selectors, but its first selector
`"[aria-label]"` already covers every element carrying the attribute, so
the later, narrower selectors can never add a match. -/
def extractAriaLabel (doc : Doc) : Option String :=
  (allElems doc).findSome? fun n =>
    match nodeAttr n "aria-label" with
    | none => none
    | some l => if l ≠ "" ∧ (jsTrim l).length ≥ 30 then some (jsTrim l) else none

/-- `extractDescription`: og:description → `meta[name="description"]` →
meaningful paragraph → `meta[name="keywords"]` → `<title>` (≥ 20 chars) →
long `aria-label`. -/
def extractDescription (doc : Doc) : Option String :=
  let ogDescription := jsOrOpt (metaContent doc "property" "og:description")
    (metaContent doc "name" "og:description")
  if fieldNonEmpty ogDescription then ogDescription.map jsTrim
  else
    let metaDescription := metaContent doc "name" "description"
    if fieldNonEmpty metaDescription then metaDescription.map jsTrim
    else
      match findMeaningfulParagraph doc with
      | some p => some p
      | none =>
        let keywords := metaContent doc "name" "keywords"
        if fieldNonEmpty keywords then keywords.map jsTrim
        else
          let titleTag := jsTrim (textOfAll doc "title")
          if titleTag ≠ "" ∧ titleTag.length ≥ 20 then some titleTag
          else extractAriaLabel doc

/-- The logo keyword list of `isLikelyLogo`. -/
def logoKeywords : List String := ["logo", "brand", "icon", "favicon"]

/-- The favicon filename pattern list of `isLikelyLogo`. -/
def faviconPatterns : List String :=
  ["/favicon", "icon.", "logo.", "brand.", ".ico", "apple-touch-icon"]

/-- `isLikelyLogo`: logo keyword in class/id/alt, favicon pattern in src,
a `header`/`footer`/`nav` ancestor, or declared dimensions below 200px. -/
def isLikelyLogo (img : Node) (anc : List Node) : Bool :=
  let src := (nodeAttr img "src").getD ""
  let classAttr := strToLower ((nodeAttr img "class").getD "")
  let idAttr := strToLower ((nodeAttr img "id").getD "")
  let altAttr := strToLower ((nodeAttr img "alt").getD "")
  (logoKeywords.any fun k =>
    strIncludes classAttr k || strIncludes idAttr k || strIncludes altAttr k) ||
  (faviconPatterns.any fun p => strIncludes (strToLower src) p) ||
  (anc.any fun a =>
    (nodeTag a).any fun t => t = "header" || t = "footer" || t = "nav" || t = "navigation") ||
  (let width := jsParseIntNat (jsOr (nodeAttr img "width") "0")
   let height := jsParseIntNat (jsOr (nodeAttr img "height") "0")
   width > 0 && height > 0 && (width < 200 || height < 200))

/-- `findMeaningfulImage`: over `body img` in document order, skip
logos and src-less images; score by `width*height` when both are
declared, else `10000 - 10*index`; return the highest-scoring (earliest
on ties) image's src resolved against the base URL.  The source sorts by
descending size with index tiebreak and takes the head; we fold for the
maximum, which keeps the earliest of equal scores. -/
def findMeaningfulImage (doc : Doc) (baseUrl : String) : Option String :=
  let images := (allElemsAnc doc).filter fun pr =>
    nodeTag pr.1 = some "img" && pr.2.any (fun a => nodeTag a = some "body")
  let validImages : List (Node × Int) :=
    images.enum.filterMap fun x =>
      let img := x.2.1
      if isLikelyLogo img x.2.2 then none
      else
        let src := jsOrOpt (nodeAttr img "src") (nodeAttr img "data-src")
        if truthyStr src then
          let width := jsParseIntNat (jsOr (nodeAttr img "width") "0")
          let height := jsParseIntNat (jsOr (nodeAttr img "height") "0")
          let size : Int :=
            if width > 0 ∧ height > 0 then ((width * height : Nat) : Int)
            else (10000 : Int) - 10 * (x.1 : Int)
          some (img, size)
        else none
  let best := validImages.foldl
    (fun acc x =>
      match acc with
      | none => some x
      | some b => if x.2 > b.2 then some x else some b)
    none
  match best with
  | none => none
  | some (img, _) =>
    let src := jsOrOpt (nodeAttr img "src") (nodeAttr img "data-src")
    match src with
    | some s => if s ≠ "" then some (resolveUrl s baseUrl) else none
    | none => none

/-- `extractImage`: og:image (trimmed, resolved) → meaningful body image. -/
def extractImage (doc : Doc) (baseUrl : String) : Option String :=
  let ogImage := jsOrOpt (metaContent doc "property" "og:image") (metaContent doc "name" "og:image")
  match ogImage with
  | some s =>
    if s ≠ "" ∧ jsTrim s ≠ "" then some (resolveUrl (jsTrim s) baseUrl)
    else findMeaningfulImage doc baseUrl
  | none => findMeaningfulImage doc baseUrl

/-- The `og:url` lookup of `parseOpenGraphTags`:
`attr(property) || attr(name) || null`. -/
def ogUrlOf (doc : Doc) : Option String :=
  jsOrNull (metaContent doc "property" "og:url") (metaContent doc "name" "og:url")

/-- `parseOpenGraphTags`: extract title/description/image, read `og:url`,
sanitize the texts, and fall back to the base URL for the `url` field
(`url: ogUrl || baseUrl` — a string in the source, never null). -/
def parseOpenGraphTags (doc : Doc) (baseUrl : String) : ParsedMetadata :=
  let title := extractTitle doc
  let description := extractDescription doc
  let image := extractImage doc baseUrl
  let ogUrl := ogUrlOf doc
  { title :=
      match title with
      | some t => if t ≠ "" then some (sanitizeText t) else none
      | none => none
    description :=
      match description with
      | some d => if d ≠ "" then some (sanitizeText d) else none
      | none => none
    image := image
    url := some (jsOr ogUrl baseUrl) }

/-! ## `utils/platform-detector.ts` -/

/-- `extractHostname`: hostname of the URL, lower-cased, with a leading
`www.` stripped; `none` when URL parsing fails. -/
def extractHostname (url : String) : Option String :=
  match parseJsUrl url with
  | none => none
  | some u =>
    let hostname := strToLower u.hostname
    if strStartsWith hostname "www." then some (⟨hostname.data.drop 4⟩ : String)
    else some hostname

/-- The ordered platform pattern table of `detectPlatform`
(JS object literals preserve insertion order). -/
def platformPatterns : List (String × List String) :=
  [("youtube", ["youtube.com", "youtu.be"]),
   ("spotify", ["spotify.com"]),
   ("instagram", ["instagram.com"]),
   ("facebook", ["facebook.com", "fb.com"]),
   ("twitter", ["twitter.com", "x.com"]),
   ("reddit", ["reddit.com"]),
   ("flipkart", ["flipkart.com"]),
   ("blinkit", ["blinkit.com"]),
   ("swiggy", ["swiggy.com"]),
   ("instamart", ["swiggy.com"]),
   ("zepto", ["zepto.com"]),
   ("amazon", ["amazon.com", "amazon.in", "amazon.co.uk"]),
   ("linkedin", ["linkedin.com"]),
   ("netflix", ["netflix.com"]),
   ("dealshare", ["dealshare.in"]),
   ("google news", ["news.google.com"]),
   ("chrome", ["chrome.google.com"]),
   ("firefox", ["mozilla.org", "firefox.com"]),
   ("safari", ["apple.com"])]

/-- `detectPlatform`: first table entry one of whose patterns occurs in
the hostname wins; a `swiggy` hit is refined to `instamart` when
the full URL contains `/instamart/`. -/
def detectPlatform (url : String) : Option String :=
  match extractHostname url with
  | none => none
  | some hostname =>
    match platformPatterns.find? (fun e => e.2.any (fun pat => strIncludes hostname pat)) with
    | none => none
    | some e =>
      if e.1 = "swiggy" && strIncludes url "/instamart/" then some "instamart"
      else some e.1

/-- `isPlatform`: the detected platform equals the given one. -/
def isPlatform (url platform : String) : Bool :=
  detectPlatform url = some platform

/-! ## Data model (`types/metadata.types.ts`) -/

/-- `MetadataResponse` from `metadata.types.ts` (the returned record).
The `url` field is built by `pm.url || url` and is therefore always a
string in the source; we keep it `Option` to state null-freedom. -/
structure MetadataResponse where
  url : Option String
  title : Option String
  description : Option String
  image : Option String
  tag : Option String
  metadataFetched : Bool
deriving DecidableEq, Repr

/-! ## `services/metadata.service.ts` — tag detection and formatting

The same `detectTag` and `formatMetadataResponse` bodies appear in both
parallel metadata-service implementations (the scraper-only one and the
platform-extractor one); we embed them once. -/

/-- `detectTag` from `metadata.service.ts`: hostname of the URL,
lower-cased, leading `www.` stripped, split on `.`; the first part is the
tag.  Any thrown error (unparseable URL) yields `"general"`. -/
def detectTag (url : String)
    (_metadata : Option (Option String × Option String)) : Option String :=
  match parseJsUrl url with
  | none => some "general"
  | some u =>
    let hostname₀ := strToLower u.hostname
    let hostname := if strStartsWith hostname₀ "www." then (⟨hostname₀.data.drop 4⟩ : String) else hostname₀
    match strSplitOn hostname '.' with
    | [] => some "general"
    | p :: _ => some p

/-- `hasMetadata`: at least one of title/description/image is a non-null,
non-blank string. -/
def hasMetadata (pm : ParsedMetadata) : Bool :=
  fieldNonEmpty pm.title || fieldNonEmpty pm.description || fieldNonEmpty pm.image

/-- `formatMetadataResponse` from `metadata.service.ts`. -/
def formatMetadataResponse (url : String) (pm : ParsedMetadata) : MetadataResponse :=
  let has := hasMetadata pm
  let tag := detectTag url (some (pm.title, pm.description))
  { url := some (jsOr pm.url url)
    title := if has then pm.title else none
    description := if has then pm.description else none
    image := if has then pm.image else none
    tag := if has then tag else some "untitled"
    metadataFetched := has }

/-! ## Helper lemmas -/

deriving instance DecidableEq for Except

theorem fieldNonEmpty_iff (o : Option String) :
    fieldNonEmpty o = true ↔ ∃ s, o = some s ∧ jsTrim s ≠ "" := by
  cases o with
  | none => simp [fieldNonEmpty]
  | some s =>
    by_cases hs : s = ""
    · subst hs
      simp [fieldNonEmpty, jsTrim, jsTrimList, jsTrimLeftList, jsTrimRightList]
    · simp [fieldNonEmpty, hs]

/-! ## Claim theorems (first batch) -/

/-- A successful `normalizeUrl` result is a fixed point of `normalizeUrl`
(shared helper). -/
theorem normalizeUrl_ok_fixed (u v : String) (h : normalizeUrl u = .ok v) :
    normalizeUrl v = .ok v := by
  simp only [normalizeUrl] at h
  split_ifs at h with h1 h2 h3
  have hv : v = jsTrim u := by
    simp only [Except.ok.injEq] at h
    exact h.symm
  subst hv
  have hvalid : isValidUrl (jsTrim u) = true := by
    cases hval : isValidUrl (jsTrim u) with
    | false => exact absurd (by simp [hval]) h3
    | true => rfl
  simp [normalizeUrl, jsTrim_idem, h2, hvalid]

/-- C9: `normalizeUrl` is idempotent — whenever it succeeds with result
`v`, running it again on `v` succeeds with the same `v`. -/
theorem normalizeUrl_idempotent (u v : String) (h : normalizeUrl u = .ok v) :
    normalizeUrl v = .ok v :=
  normalizeUrl_ok_fixed u v h

/-- Witness for C9 at a concrete URL. -/
theorem normalizeUrl_idempotent_witness :
    normalizeUrl "https://example.com" = .ok "https://example.com" :=
  normalizeUrl_idempotent " https://example.com " "https://example.com" (by decide)

/-- C5: platform detection maps the swiggy-instamart URL to `instamart`,
the plain swiggy URL to `swiggy`, the youtu.be URL to `youtube`, and any
URL whose (www-stripped, lower-cased) hostname matches no pattern of the
table to `none`. -/
theorem detectPlatform_spec :
    detectPlatform "https://www.swiggy.com/instamart/item/ABC" = some "instamart" ∧
    detectPlatform "https://swiggy.com/restaurant/xyz" = some "swiggy" ∧
    detectPlatform "https://youtu.be/abc123" = some "youtube" ∧
    ∀ url h, extractHostname url = some h →
      platformPatterns.all (fun e => e.2.all (fun pat => !strIncludes h pat)) = true →
      detectPlatform url = none := by
  refine ⟨by decide, by decide, by decide, ?_⟩
  intro url h hh hall
  simp only [detectPlatform, hh]
  have hfind : platformPatterns.find?
      (fun e => e.2.any (fun pat => strIncludes h pat)) = none := by
    rw [List.find?_eq_none]
    intro e he
    intro hany
    simp only [List.any_eq_true] at hany
    obtain ⟨pat, hpat, hinc⟩ := hany
    simp only [List.all_eq_true] at hall
    have h1 := hall e he
    simp only [List.all_eq_true] at h1
    have h2 := h1 pat hpat
    rw [hinc] at h2
    exact absurd h2 (by simp)
  rw [hfind]

/-- Witness for C5's universal part at a concrete non-matching URL. -/
theorem detectPlatform_spec_witness :
    detectPlatform "https://example.org/a" = none :=
  detectPlatform_spec.2.2.2 "https://example.org/a" "example.org" (by decide) (by decide)

/-- C3 counterexample: for a URL whose hostname appears in no curated
table and whose URL/metadata contain no category keyword, the claimed
two-tier detector would return `none`; the actual `detectTag` instead
returns the first dot-separated hostname label, which is neither `none`
nor one of the claimed category tags. -/
theorem detectTag_counterexample :
    detectTag "https://zzqqx.example.org/a" none = some "zzqqx" ∧
    detectTag "https://zzqqx.example.org/a" none ≠ none ∧
    ∀ t, detectTag "https://zzqqx.example.org/a" none = some t →
      t ∉ ["shopping", "news", "social", "video", "tech"] := by
  refine ⟨by decide, by decide, ?_⟩
  intro t ht
  have h1 : detectTag "https://zzqqx.example.org/a" none = some "zzqqx" := by decide
  rw [h1] at ht
  injection ht with heq
  subst heq
  decide

/-- C3 amended: `detectTag` performs no curated-table or keyword
matching — it never returns `none`; on an unparseable URL it returns
`"general"`, and otherwise the first dot-separated label of the
lower-cased, www-stripped hostname. -/
theorem detectTag_amended (url : String) (m : Option (Option String × Option String)) :
    detectTag url m ≠ none ∧
    (parseJsUrl url = none → detectTag url m = some "general") ∧
    (∀ u, parseJsUrl url = some u →
      detectTag url m = some
        ((strSplitOn (if strStartsWith (strToLower u.hostname) "www."
            then (⟨(strToLower u.hostname).data.drop 4⟩ : String)
            else strToLower u.hostname) '.').headD "general")) := by
  refine ⟨?_, ?_, ?_⟩
  · simp only [detectTag]
    cases hp : parseJsUrl url with
    | none => simp
    | some u =>
      simp only
      cases hsplit : strSplitOn (if strStartsWith (strToLower u.hostname) "www."
          then (⟨(strToLower u.hostname).data.drop 4⟩ : String)
          else strToLower u.hostname) '.' with
      | nil => simp [hsplit]
      | cons p rest => simp [hsplit]
  · intro hp
    simp [detectTag, hp]
  · intro u hp
    simp only [detectTag, hp]
    cases hsplit : strSplitOn (if strStartsWith (strToLower u.hostname) "www."
        then (⟨(strToLower u.hostname).data.drop 4⟩ : String)
        else strToLower u.hostname) '.' with
    | nil => simp [hsplit]
    | cons p rest => simp [hsplit]

/-- Witness for C3's amended theorem at concrete URLs. -/
theorem detectTag_amended_witness :
    detectTag "notaurl" none = some "general" ∧
    detectTag "https://www.youtube.com/watch" none ≠ none :=
  ⟨(detectTag_amended "notaurl" none).2.1 (by decide),
   (detectTag_amended "https://www.youtube.com/watch" none).1⟩

/-- C4: the returned record's `metadataFetched` flag is true iff at least
one of title/description/image is non-empty after trimming, and it is a
function of the `ParsedMetadata` alone (the URL argument of the formatter
cannot influence it). -/
theorem metadataFetched_spec (url : String) (pm : ParsedMetadata) :
    ((formatMetadataResponse url pm).metadataFetched = true ↔
      (∃ s, pm.title = some s ∧ jsTrim s ≠ "") ∨
      (∃ s, pm.description = some s ∧ jsTrim s ≠ "") ∨
      (∃ s, pm.image = some s ∧ jsTrim s ≠ "")) ∧
    (∀ url', (formatMetadataResponse url' pm).metadataFetched =
      (formatMetadataResponse url pm).metadataFetched) := by
  constructor
  · simp only [formatMetadataResponse, hasMetadata, Bool.or_eq_true]
    rw [fieldNonEmpty_iff, fieldNonEmpty_iff, fieldNonEmpty_iff]
    exact or_assoc
  · intro url'
    rfl

/-- Witness for C4 at a concrete record. -/
theorem metadataFetched_spec_witness :
    (formatMetadataResponse "https://a.com/x" ⟨some "T", none, none, none⟩).metadataFetched = true :=
  (metadataFetched_spec "https://a.com/x" ⟨some "T", none, none, none⟩).1.mpr
    (Or.inl ⟨"T", rfl, by decide⟩)

/-! ## Claim theorems: the generic parser (C2, C10) -/

/-- A document whose only content is a single `og:title` meta tag with
content `t` (cheerio wraps a fragment into `html`/`head`/`body`). -/
def ogTitleOnlyDoc (t : String) : Doc :=
  [.elem "html" []
    [.elem "head" [] [.elem "meta" [("property", "og:title"), ("content", t)] []],
     .elem "body" [] []]]

/-- C2 counterexample: on a document containing only
`<meta property="og:title" content="T">`, the parser does return
`title = "T"` with null description and image, but the `url` field is the
base URL, not null — `parseOpenGraphTags` ends with
`url: ogUrl || baseUrl`. -/
theorem parse_ogTitleOnly_counterexample :
    parseOpenGraphTags (ogTitleOnlyDoc "T") "https://example.com/page" =
      ⟨some "T", none, none, some "https://example.com/page"⟩ ∧
    (parseOpenGraphTags (ogTitleOnlyDoc "T") "https://example.com/page").url ≠ none :=
  ⟨by decide, by decide⟩

/-- C2 amended: for every `T` with non-blank trim and every base URL,
parsing a document whose only content is
`<meta property="og:title" content="T">` yields
`title = sanitize(trim(T))` (so `T` itself whenever `T` is already
whitespace-normalized), null description and image, and `url` equal to
the base URL (not null). -/
theorem parse_ogTitleOnly_amended (t base : String) (ht : jsTrim t ≠ "") :
    parseOpenGraphTags (ogTitleOnlyDoc t) base =
      ⟨some (sanitizeText (jsTrim t)), none, none, some base⟩ := by
  have htne : t ≠ "" := by
    intro he
    apply ht
    rw [he]
    decide
  have hje : jsTrim "" = "" := by decide
  simp [parseOpenGraphTags, extractTitle, extractDescription, extractImage, ogTitleOnlyDoc,
    metaContent, allElems, allElemsAnc, elemsAnc, elemAnc, nodeTag, nodeAttr, jsOrOpt, jsOrNull,
    truthyStr, fieldNonEmpty, findMeaningfulParagraph, pWithAncestor, pChildOfBody, allPs,
    firstMeaningfulIn, extractAriaLabel, textOfAll, firstTagText, nodesText, nodeText,
    findMeaningfulImage, ogUrlOf, jsOr, htne, ht, hje]

/-- Witness for C2's amended theorem at `T = "Hello"`. -/
theorem parse_ogTitleOnly_amended_witness :
    parseOpenGraphTags (ogTitleOnlyDoc "Hello") "https://example.com/" =
      ⟨some (sanitizeText (jsTrim "Hello")), none, none, some "https://example.com/"⟩ :=
  parse_ogTitleOnly_amended "Hello" "https://example.com/" (by decide)

/-- C10: the record's `url` is never null; when the page declares a
non-empty `og:url` value `U`, the parser sets `url = U` and the formatter
returns `U` regardless of the requested URL; when `og:url` is absent, the
parser falls back to the (non-empty) base URL and the formatter returns
that. -/
theorem record_url_spec :
    (∀ requrl pm, (formatMetadataResponse requrl pm).url ≠ none) ∧
    (∀ doc base requrl U, ogUrlOf doc = some U → U ≠ "" →
      (parseOpenGraphTags doc base).url = some U ∧
      (formatMetadataResponse requrl (parseOpenGraphTags doc base)).url = some U) ∧
    (∀ doc base requrl, ogUrlOf doc = none → base ≠ "" →
      (parseOpenGraphTags doc base).url = some base ∧
      (formatMetadataResponse requrl (parseOpenGraphTags doc base)).url = some base) := by
  refine ⟨?_, ?_, ?_⟩
  · intro requrl pm
    simp [formatMetadataResponse]
  · intro doc base requrl U hU hUne
    have hparse : (parseOpenGraphTags doc base).url = some U := by
      simp [parseOpenGraphTags, hU, jsOr, hUne]
    refine ⟨hparse, ?_⟩
    simp [formatMetadataResponse, hparse, jsOr, hUne]
  · intro doc base requrl hnone hbase
    have hparse : (parseOpenGraphTags doc base).url = some base := by
      simp [parseOpenGraphTags, hnone, jsOr]
    refine ⟨hparse, ?_⟩
    simp [formatMetadataResponse, hparse, jsOr, hbase]

/-- A document carrying an `og:url` meta tag, for the C10 witness. -/
def ogUrlDoc : Doc :=
  [.elem "meta" [("property", "og:url"), ("content", "https://canonical.example/x")] []]

/-- Witness for C10 at a concrete document. -/
theorem record_url_spec_witness :
    (formatMetadataResponse "https://req.example/"
      (parseOpenGraphTags ogUrlDoc "https://base.example/")).url =
      some "https://canonical.example/x" :=
  (record_url_spec.2.1 ogUrlDoc "https://base.example/" "https://req.example/"
    "https://canonical.example/x" (by decide) (by decide)).2

/-! ## `services/scraper.service.ts`

The undici `fetch` call is I/O; we model its outcome per URL with an
oracle.  A `response` carries the HTTP status and text, the final
(post-redirect) URL, whether the body text was blank, and the parsed
body DOM; the other constructors are the abort (timeout) path, a
`TypeError` from fetch, and any other thrown error. -/

inductive FetchResult where
  | response (status : Nat) (statusText : String) (finalUrl : String)
      (bodyBlank : Bool) (doc : Doc)
  | aborted
  | fetchTypeError (msg : String)
  | otherError (msg : String)

/-- `scrapeMetadata`: normalize, fetch, fail on non-2xx status
(`response.ok` is status 200–299) or blank body, otherwise parse OG tags
against the final URL (`response.url || normalizedUrl`).  The catch
block maps an abort to the timeout message, rewraps a fetch `TypeError`,
and rethrows other errors. -/
def scrapeMetadataM (fetch : String → FetchResult) (url : String) :
    Except String ParsedMetadata :=
  match normalizeUrl url with
  | .error e => .error e
  | .ok normalizedUrl =>
    match fetch normalizedUrl with
    | .aborted =>
      .error "Request timed out. Please check your internet connection and try again."
    | .fetchTypeError msg =>
      if strIncludes msg "fetch" then
        .error ("Failed to fetch URL: " ++ msg ++ ". Please check if the URL is accessible.")
      else .error msg
    | .otherError msg => .error msg
    | .response status statusText finalUrl bodyBlank doc =>
      if ¬(200 ≤ status ∧ status ≤ 299) then
        .error ("HTTP request failed with status " ++ toString status ++ ": " ++ statusText)
      else
        let finalUrl' := if finalUrl = "" then normalizedUrl else finalUrl
        if bodyBlank then .error "Empty response from server"
        else .ok (parseOpenGraphTags doc finalUrl')

/-! ## `services/cache.service.ts` -/

/-- UTF-8 bytes of a character (as used by `Buffer.from(url)`). -/
def charUtf8 (c : Char) : List Nat :=
  let n := c.toNat
  if n < 0x80 then [n]
  else if n < 0x800 then [0xC0 + n / 64, 0x80 + n % 64]
  else if n < 0x10000 then
    [0xE0 + n / 4096, 0x80 + (n / 64) % 64, 0x80 + n % 64]
  else
    [0xF0 + n / 262144, 0x80 + (n / 4096) % 64, 0x80 + (n / 64) % 64, 0x80 + n % 64]

/-- UTF-8 bytes of a string. -/
def utf8Bytes (s : String) : List Nat := (s.data.map charUtf8).flatten

/-- The base64url alphabet. -/
def b64Char (n : Nat) : Char :=
  if n < 26 then Char.ofNat (65 + n)
  else if n < 52 then Char.ofNat (97 + n - 26)
  else if n < 62 then Char.ofNat (48 + n - 52)
  else if n = 62 then '-'
  else '_'

/-- Unpadded base64url encoding (Node's `toString("base64url")`). -/
def b64urlEncode : List Nat → List Char
  | [] => []
  | [a] => [b64Char (a / 4), b64Char (a % 4 * 16)]
  | [a, b] => [b64Char (a / 4), b64Char (a % 4 * 16 + b / 16), b64Char (b % 16 * 4)]
  | a :: b :: c :: rest =>
    b64Char (a / 4) :: b64Char (a % 4 * 16 + b / 16) ::
      b64Char (b % 16 * 4 + c / 64) :: b64Char (c % 64) :: b64urlEncode rest

/-- `getCacheKey`: `"metadata:" + base64url(url)`. -/
def getCacheKey (url : String) : String :=
  "metadata:" ++ ⟨b64urlEncode (utf8Bytes url)⟩

/-- Cache TTL: 24 hours in seconds. -/
def CACHE_TTL : Nat := 24 * 60 * 60

/-- Model of an ioredis client: its connection `status` string and the
replies its commands produce (`Except.error` = the command threw, e.g.
connection failure). -/
structure RedisClient where
  status : String
  getReply : String → Except String (Option String)
  setexReply : String → Nat → String → Except String Unit

/-- The `try` block of `getCachedMetadata`: `get` the key; a truthy
reply is `JSON.parse`d, a falsy one yields `null`.  `parseJson` models
`JSON.parse` (a runtime function). -/
def getCachedMetadataTry (c : RedisClient)
    (parseJson : String → Except String ParsedMetadata) (url : String) :
    Except String (Option ParsedMetadata) := do
  let cached ← c.getReply (getCacheKey url)
  match cached with
  | some s =>
    if s ≠ "" then
      let pm ← parseJson s
      pure (some pm)
    else pure none
  | none => pure none

/-- `getCachedMetadata`: `null` without a client; otherwise the `try`
block, with any throw caught and turned into `null`. -/
def getCachedMetadataE (redisClient : Option RedisClient)
    (parseJson : String → Except String ParsedMetadata) (url : String) :
    Except String (Option ParsedMetadata) :=
  match redisClient with
  | none => .ok none
  | some c =>
    match getCachedMetadataTry c parseJson url with
    | .error _ => .ok none
    | .ok r => .ok r

/-- `setCachedMetadata`: no-op without a client; `setex` inside `try`
with every throw swallowed.  `stringifyJson` models `JSON.stringify`. -/
def setCachedMetadataE (redisClient : Option RedisClient)
    (stringifyJson : ParsedMetadata → String) (url : String)
    (metadata : ParsedMetadata) : Except String Unit :=
  match redisClient with
  | none => .ok ()
  | some c =>
    match c.setexReply (getCacheKey url) CACHE_TTL (stringifyJson metadata) with
    | .error _ => .ok ()
    | .ok _ => .ok ()

/-- `isCacheAvailable`: a client exists and its status is `"ready"`. -/
def isCacheAvailableE (redisClient : Option RedisClient) : Bool :=
  match redisClient with
  | none => false
  | some c => c.status = "ready"

/-! ## `fetchMetadata` (platform-extractor metadata service)

For the service-level claims, cache state is threaded explicitly: the
availability flag plays the role of `isCacheAvailable()` and the entry
map holds what `setCachedMetadata` stored (keyed by `getCacheKey`; the
JSON round-trip through Redis is abstracted to the metadata value). -/

structure CacheState where
  available : Bool
  entries : List (String × ParsedMetadata)
deriving DecidableEq, Repr

/-- The cache write of `setCachedMetadata` at the state level. -/
def cacheSet (c : CacheState) (key : String) (pm : ParsedMetadata) : CacheState :=
  { c with entries := (key, pm) :: c.entries.filter (fun e => e.1 ≠ key) }

/-- Lookup in the cache state (what a later `get` of the key would see). -/
def cacheGet (c : CacheState) (key : String) : Option ParsedMetadata :=
  (c.entries.find? (fun e => e.1 = key)).map Prod.snd

/-- `fetchMetadata` from the platform-extractor metadata-service
implementation.  `extract` is the behaviour of the extractor chosen by
`getExtractorForUrl` and `scrape` that of `scrapeMetadata`, both oracles
over the URL (no extractor reads the cache).  The source's cache-lookup
block is commented out, so no lookup happens here; the try/catch
structure is: on an empty extractor result fall back to the scraper
inside the `try`, on any throw retry the scraper once and rethrow the
originally caught error if that also fails.  The still-active cache
write runs before formatting.

The extraction `try`/`catch` of `fetchMetadata`: extractor, scraper
fallback on an empty extractor result, scraper retry on a throw with the
originally caught error rethrown when the retry also throws. -/
def extractionResult (extract scrape : String → Except String ParsedMetadata)
    (normalizedUrl : String) : Except String ParsedMetadata :=
  let attempt : Except String ParsedMetadata :=
    match extract normalizedUrl with
    | .ok pm =>
      if jsFalsy pm.title && jsFalsy pm.description && jsFalsy pm.image then
        scrape normalizedUrl
      else .ok pm
    | .error e => .error e
  match attempt with
  | .ok pm => .ok pm
  | .error e =>
    match scrape normalizedUrl with
    | .ok pm => .ok pm
    | .error _ => .error e

def fetchMetadataPE (extract scrape : String → Except String ParsedMetadata)
    (cache : CacheState) (url : String) :
    Except String (MetadataResponse × CacheState) :=
  match normalizeUrl url with
  | .error e => .error e
  | .ok normalizedUrl =>
    match extractionResult extract scrape normalizedUrl with
    | .error e => .error e
    | .ok parsedMetadata =>
      let cache' :=
        if cache.available then cacheSet cache (getCacheKey normalizedUrl) parsedMetadata
        else cache
      .ok (formatMetadataResponse normalizedUrl parsedMetadata, cache')

/-! ## `controllers/metadata.controller.ts` -/

/-- The HTTP reply the controller sends. -/
inductive ControllerReply where
  | success (record : MetadataResponse)
  | failure (status : Nat) (error : String) (message : String)
deriving DecidableEq, Repr

/-- Models zod's `z.string().url()` query validation with the same URL
parser used elsewhere in the embedding. -/
def zodIsUrl (s : String) : Bool := (parseJsUrl s).isSome

/-- `getMetadata`: validate the query, call `fetchMetadata`, and map a
thrown error to an HTTP code by message content: `Invalid URL` → 400,
`timeout`/`timed out` → 504, `HTTP request failed` → 502, else 500. -/
def getMetadata (extract scrape : String → Except String ParsedMetadata)
    (cache : CacheState) (queryUrl : Option String) : ControllerReply :=
  match queryUrl with
  | none => .failure 400 "Invalid request" "Required"
  | some u =>
    if ¬ zodIsUrl u then .failure 400 "Invalid request" "Invalid URL format"
    else
      match fetchMetadataPE extract scrape cache u with
      | .ok (metadata, _) => .success metadata
      | .error msg =>
        if strIncludes msg "Invalid URL" then .failure 400 "Invalid URL" msg
        else if strIncludes msg "timeout" || strIncludes msg "timed out" then
          .failure 504 "Request timeout" "The request to fetch metadata timed out"
        else if strIncludes msg "HTTP request failed" then
          .failure 502 "Bad gateway" "Failed to fetch the requested URL"
        else .failure 500 "Internal server error" "An error occurred while fetching metadata"

/-! ## Claim theorems: error handling and the cache (C1, C6, C7, C8) -/

theorem fieldNonEmpty_of_jsFalsy (o : Option String) (h : jsFalsy o = true) :
    fieldNonEmpty o = false := by
  cases o with
  | none => rfl
  | some s =>
    simp only [jsFalsy, decide_eq_true_eq] at h
    simp [fieldNonEmpty, h]

theorem cacheGet_cacheSet (c : CacheState) (key : String) (pm : ParsedMetadata) :
    cacheGet (cacheSet c key pm) key = some pm := by
  simp [cacheGet, cacheSet]

/-- The fetch oracle of a world where every request answers HTTP 404. -/
def fetch404 : String → FetchResult :=
  fun _ => .response 404 "Not Found" "" false []

/-- C1 counterexample: when every strategy fails because the page fetch
itself fails (HTTP 404 on a non-platform URL, so the extractor is the
default scraper and its retry fails identically), `fetchMetadata`
rethrows the error — the caller gets no record at all, not a nulled
record. -/
theorem total_failure_counterexample :
    fetchMetadataPE (scrapeMetadataM fetch404) (scrapeMetadataM fetch404)
      ⟨false, []⟩ "https://example.com/page" =
      .error "HTTP request failed with status 404: Not Found" ∧
    ∀ r, fetchMetadataPE (scrapeMetadataM fetch404) (scrapeMetadataM fetch404)
      ⟨false, []⟩ "https://example.com/page" ≠ .ok r := by
  refine ⟨by decide, ?_⟩
  intro r h
  have h1 : fetchMetadataPE (scrapeMetadataM fetch404) (scrapeMetadataM fetch404)
      ⟨false, []⟩ "https://example.com/page" =
      .error "HTTP request failed with status 404: Not Found" := by decide
  rw [h1] at h
  exact absurd h (by simp)

/-- C1 amended: when every strategy *completes* but yields empty
metadata, the record is still returned with nulled fields and
`metadataFetched = false`; but when the extraction chain *throws* and
the scraper retry throws too, the error escapes `fetchMetadata` (the
HTTP layer then answers 502/504/500) and the caller receives no
record. -/
theorem total_failure_amended (e s : String → Except String ParsedMetadata)
    (c : CacheState) (url nu : String) (hn : normalizeUrl url = .ok nu) :
    (∀ pm₀ pm₁,
      e nu = .ok pm₀ →
      (jsFalsy pm₀.title && jsFalsy pm₀.description && jsFalsy pm₀.image) = true →
      s nu = .ok pm₁ →
      (jsFalsy pm₁.title && jsFalsy pm₁.description && jsFalsy pm₁.image) = true →
      ∃ c', fetchMetadataPE e s c url = .ok (formatMetadataResponse nu pm₁, c') ∧
        (formatMetadataResponse nu pm₁).metadataFetched = false ∧
        (formatMetadataResponse nu pm₁).title = none ∧
        (formatMetadataResponse nu pm₁).description = none ∧
        (formatMetadataResponse nu pm₁).image = none) ∧
    (∀ me ms, e nu = .error me → s nu = .error ms →
      fetchMetadataPE e s c url = .error me) := by
  constructor
  · intro pm₀ pm₁ he hf₀ hs hf₁
    have hres : extractionResult e s nu = .ok pm₁ := by
      simp [extractionResult, he, hf₀, hs]
    have hhas : hasMetadata pm₁ = false := by
      simp only [Bool.and_eq_true] at hf₁
      simp [hasMetadata, fieldNonEmpty_of_jsFalsy _ hf₁.1.1,
        fieldNonEmpty_of_jsFalsy _ hf₁.1.2, fieldNonEmpty_of_jsFalsy _ hf₁.2]
    refine ⟨if c.available then cacheSet c (getCacheKey nu) pm₁ else c, ?_, ?_, ?_, ?_, ?_⟩
    · simp [fetchMetadataPE, hn, hres]
    · simp [formatMetadataResponse, hhas]
    · simp [formatMetadataResponse, hhas]
    · simp [formatMetadataResponse, hhas]
    · simp [formatMetadataResponse, hhas]
  · intro me ms he hs
    have hres : extractionResult e s nu = .error me := by
      simp [extractionResult, he, hs]
    simp [fetchMetadataPE, hn, hres]

/-- An all-null extraction result (as the scraper produces on a page with
no usable content; its `url` field is the fetched URL). -/
def emptyPM : ParsedMetadata := ⟨none, none, none, some "https://empty.example/"⟩

/-- Witness for C1's amended theorem: empty-but-successful extraction
still yields a record with nulled fields. -/
theorem total_failure_amended_witness :
    ∃ c', fetchMetadataPE (fun _ => .ok emptyPM) (fun _ => .ok emptyPM)
        ⟨false, []⟩ "https://empty.example/" =
        .ok (formatMetadataResponse "https://empty.example/" emptyPM, c') ∧
      (formatMetadataResponse "https://empty.example/" emptyPM).metadataFetched = false ∧
      (formatMetadataResponse "https://empty.example/" emptyPM).title = none ∧
      (formatMetadataResponse "https://empty.example/" emptyPM).description = none ∧
      (formatMetadataResponse "https://empty.example/" emptyPM).image = none :=
  (total_failure_amended (fun _ => .ok emptyPM) (fun _ => .ok emptyPM)
    ⟨false, []⟩ "https://empty.example/" "https://empty.example/" (by decide)).1
    emptyPM emptyPM rfl (by decide) rfl (by decide)

/-- C6: for a well-formed, non-platform-matched URL (so the selected
extractor is the Default Extractor, i.e. `scrapeMetadata`), a 404 on the
page fetch surfaces as `502 Bad gateway`, and a fetch timeout surfaces
as `504 Request timeout` — classified from the escaped error's
message. -/
theorem controller_upstream_codes (f : String → FetchResult) (cache : CacheState)
    (u nu : String) (hz : zodIsUrl u = true) (hn : normalizeUrl u = .ok nu)
    (_hplat : detectPlatform nu = none) :
    (∀ finalUrl bodyBlank doc,
      f nu = .response 404 "Not Found" finalUrl bodyBlank doc →
      getMetadata (scrapeMetadataM f) (scrapeMetadataM f) cache (some u) =
        .failure 502 "Bad gateway" "Failed to fetch the requested URL") ∧
    (f nu = .aborted →
      getMetadata (scrapeMetadataM f) (scrapeMetadataM f) cache (some u) =
        .failure 504 "Request timeout" "The request to fetch metadata timed out") := by
  have hnu : normalizeUrl nu = .ok nu := normalizeUrl_ok_fixed u nu hn
  constructor
  · intro finalUrl bodyBlank doc hf
    have hscrape : scrapeMetadataM f nu =
        .error "HTTP request failed with status 404: Not Found" := by
      simp [scrapeMetadataM, hnu, hf]
      decide
    have hres : extractionResult (scrapeMetadataM f) (scrapeMetadataM f) nu =
        .error "HTTP request failed with status 404: Not Found" := by
      simp [extractionResult, hscrape]
    have hfm : fetchMetadataPE (scrapeMetadataM f) (scrapeMetadataM f) cache u =
        .error "HTTP request failed with status 404: Not Found" := by
      simp [fetchMetadataPE, hn, hres]
    simp only [getMetadata, hz, hfm]
    decide
  · intro hf
    have hscrape : scrapeMetadataM f nu =
        .error "Request timed out. Please check your internet connection and try again." := by
      simp [scrapeMetadataM, hnu, hf]
    have hres : extractionResult (scrapeMetadataM f) (scrapeMetadataM f) nu =
        .error "Request timed out. Please check your internet connection and try again." := by
      simp [extractionResult, hscrape]
    have hfm : fetchMetadataPE (scrapeMetadataM f) (scrapeMetadataM f) cache u =
        .error "Request timed out. Please check your internet connection and try again." := by
      simp [fetchMetadataPE, hn, hres]
    simp only [getMetadata, hz, hfm]
    decide

/-- Witness for C6: concrete 404 world. -/
theorem controller_upstream_codes_witness :
    getMetadata (scrapeMetadataM fetch404) (scrapeMetadataM fetch404)
      ⟨false, []⟩ (some "https://nosuch.example/x") =
      .failure 502 "Bad gateway" "Failed to fetch the requested URL" :=
  (controller_upstream_codes fetch404 ⟨false, []⟩ "https://nosuch.example/x"
    "https://nosuch.example/x" (by decide) (by decide) (by decide)).1 "" false [] rfl

/-- C7: in the platform-extractor metadata service, the returned record
is independent of the cache contents (the commented-out lookup never
runs), while a completed extraction is still written to the cache under
the normalized URL's key. -/
theorem fetchMetadata_cache_independent :
    (∀ e s url c₁ c₂,
      Except.map Prod.fst (fetchMetadataPE e s c₁ url) =
      Except.map Prod.fst (fetchMetadataPE e s c₂ url)) ∧
    (∀ e s url c r c', c.available = true →
      fetchMetadataPE e s c url = .ok (r, c') →
      ∃ nu pm, normalizeUrl url = .ok nu ∧
        cacheGet c' (getCacheKey nu) = some pm ∧
        r = formatMetadataResponse nu pm) := by
  constructor
  · intro e s url c₁ c₂
    unfold fetchMetadataPE
    cases hn : normalizeUrl url with
    | error msg => rfl
    | ok nu =>
      cases hr : extractionResult e s nu with
      | error msg => simp [hr]
      | ok pm => simp [hr, Except.map]
  · intro e s url c r c' hav hok
    unfold fetchMetadataPE at hok
    cases hn : normalizeUrl url with
    | error msg =>
      simp only [hn] at hok
      exact absurd hok (by simp)
    | ok nu =>
      simp only [hn] at hok
      cases hr : extractionResult e s nu with
      | error msg =>
        simp only [hr] at hok
        exact absurd hok (by simp)
      | ok pm =>
        simp only [hr, hav, if_true, Except.ok.injEq, Prod.mk.injEq] at hok
        obtain ⟨hr1, hc1⟩ := hok
        refine ⟨nu, pm, rfl, ?_, hr1.symm⟩
        rw [← hc1]
        exact cacheGet_cacheSet c (getCacheKey nu) pm

/-- A non-empty extraction result for the C7 witness. -/
def titledPM : ParsedMetadata := ⟨some "T", none, none, some "https://e.com/"⟩

/-- Witness for C7: the cache write is observable in the final state. -/
theorem fetchMetadata_cache_independent_witness :
    ∃ nu pm, normalizeUrl "https://e.com/" = .ok nu ∧
      cacheGet (cacheSet ⟨true, []⟩ (getCacheKey "https://e.com/") titledPM)
        (getCacheKey nu) = some pm ∧
      formatMetadataResponse "https://e.com/" titledPM = formatMetadataResponse nu pm :=
  fetchMetadata_cache_independent.2 (fun _ => .ok titledPM) (fun _ => .ok titledPM)
    "https://e.com/" ⟨true, []⟩ (formatMetadataResponse "https://e.com/" titledPM)
    (cacheSet ⟨true, []⟩ (getCacheKey "https://e.com/") titledPM) rfl (by decide)

/-- C8: cache `get` never raises — absent, unavailable, or erroring
backends and deserialization failures all come back as a miss (`null`) —
and `set` returns without surfacing any error. -/
theorem cache_errors_swallowed :
    (∀ client parseJson url, ∃ r, getCachedMetadataE client parseJson url = .ok r) ∧
    (∀ parseJson url, getCachedMetadataE none parseJson url = .ok none) ∧
    (∀ (c : RedisClient) parseJson url msg,
      c.getReply (getCacheKey url) = .error msg →
      getCachedMetadataE (some c) parseJson url = .ok none) ∧
    (∀ (c : RedisClient) parseJson url s emsg,
      c.getReply (getCacheKey url) = .ok (some s) → s ≠ "" →
      parseJson s = .error emsg →
      getCachedMetadataE (some c) parseJson url = .ok none) ∧
    (∀ client stringifyJson url pm,
      setCachedMetadataE client stringifyJson url pm = .ok ()) := by
  refine ⟨?_, ?_, ?_, ?_, ?_⟩
  · intro client parseJson url
    cases client with
    | none => exact ⟨none, rfl⟩
    | some c =>
      cases hb : getCachedMetadataTry c parseJson url with
      | error msg => exact ⟨none, by simp [getCachedMetadataE, hb]⟩
      | ok r => exact ⟨r, by simp [getCachedMetadataE, hb]⟩
  · intro parseJson url
    rfl
  · intro c parseJson url msg hmsg
    have hb : getCachedMetadataTry c parseJson url = .error msg := by
      unfold getCachedMetadataTry
      rw [hmsg]
      rfl
    simp [getCachedMetadataE, hb]
  · intro c parseJson url s emsg hget hs hparse
    have hb : getCachedMetadataTry c parseJson url = .error emsg := by
      unfold getCachedMetadataTry
      rw [hget]
      show (if s ≠ "" then (parseJson s).bind (fun pm => pure (some pm)) else pure none) = .error emsg
      rw [if_pos hs, hparse]
      rfl
    simp [getCachedMetadataE, hb]
  · intro client stringifyJson url pm
    cases client with
    | none => rfl
    | some c =>
      simp only [setCachedMetadataE]
      cases c.setexReply (getCacheKey url) CACHE_TTL (stringifyJson pm) with
      | error msg => rfl
      | ok r => rfl

/-- A Redis client whose every command throws (connection refused). -/
def failingRedis : RedisClient :=
  ⟨"ready", fun _ => .error "connection refused", fun _ _ _ => .error "connection refused"⟩

/-- Witness for C8: a throwing backend still yields a miss. -/
theorem cache_errors_swallowed_witness :
    getCachedMetadataE (some failingRedis) (fun _ => .error "bad json")
      "https://e.com/" = .ok none :=
  cache_errors_swallowed.2.2.1 failingRedis (fun _ => .error "bad json")
    "https://e.com/" "connection refused" rfl

end Linksmash
